import Mathlib

/-!
# Beer Game environment — shallow embedding

Shallow embedding of `beergame/env/beergame.py` (class `raw_env`): the
four-echelon supply-chain simulation.  Quantities are modelled as exact
rationals (the Python code uses `float32` arrays; the algorithm is pure
`+`/`-`/`max` arithmetic).  The process-wide NumPy random stream consumed by
`_generate_customer_demand` is modelled as an explicit list of rational draws
carried in the state, one draw per propagation; each draw stands for the
combined exogenous offset `seasonal + noise + spike` of that call (the sine
seasonal term, Gaussian noise and Bernoulli spike are not separately
representable in exact arithmetic, and no property below depends on their
internal decomposition — only on the final `max(0, ...)` clamp and on how the
stream is threaded).
-/

namespace BeerGame

/-- `self.possible_agents` — the fixed four-echelon roster, in turn order. -/
def possibleAgents : List String := ["retailer", "wholesaler", "distributor", "factory"]

/-- `self.possible_agents.index(agent)` for the four valid agent names. -/
def agentIndex (a : String) : Fin 4 :=
  if a = "retailer" then 0
  else if a = "wholesaler" then 1
  else if a = "distributor" then 2
  else 3

/-- The constructor configuration of `raw_env.__init__` (cost coefficients and
initial vectors; `render_mode`, `info_sharing` and `seed` are not part of the
per-step arithmetic). -/
structure Config where
  holding_cost : Fin 4 → ℚ
  backorder_cost : Fin 4 → ℚ
  init_inv_level : Fin 4 → ℚ
  init_orders : Fin 4 → ℚ
  init_shipments : Fin 4 → ℚ
  base_demand : ℚ

/-- The default keyword arguments of `raw_env.__init__`. -/
def defaultConfig : Config where
  holding_cost := fun _ => 1
  backorder_cost := fun _ => 2
  init_inv_level := fun _ => 12
  init_orders := fun _ => 0
  init_shipments := fun _ => 4
  base_demand := 8

/-- `self.customer` — the exogenous endpoint dict. -/
structure Customer where
  orders : ℚ
  incoming_shipments : ℚ
deriving DecidableEq

/-- The mutable attributes of `raw_env`: episode state, turn bookkeeping, and
the modelled process-wide random stream (`rng`). -/
structure EnvState where
  week : ℕ
  inventory_levels : Fin 4 → ℚ
  backorders : Fin 4 → ℚ
  orders : Fin 4 → ℚ
  incoming_shipments : Fin 4 → ℚ
  customer : Customer
  total_beers : ℚ
  agents : List String
  terminations : Fin 4 → Bool
  truncations : Fin 4 → Bool
  rewards : Fin 4 → ℚ
  agent_selection : Fin 4
  rng : List ℚ

/-- `raw_env.__init__`: only `self.customer` and `self.total_beers` (among the
episode-state attributes) are created here; the remaining attributes are first
assigned by `reset`, so they are given inert zero values.  `rng` is the
process-wide random stream as left by the constructor (after `np.random.seed`
when a seed was passed). -/
def initEnv (rng : List ℚ) : EnvState where
  week := 0
  inventory_levels := fun _ => 0
  backorders := fun _ => 0
  orders := fun _ => 0
  incoming_shipments := fun _ => 0
  customer := { orders := 0, incoming_shipments := 0 }
  total_beers := 0
  agents := []
  terminations := fun _ => false
  truncations := fun _ => false
  rewards := fun _ => 0
  agent_selection := 0
  rng := rng

/-- `_generate_customer_demand`: `demand = max(0, base_demand + seasonal +
noise + spike)`, with `seasonal + noise + spike` abstracted into the single
exogenous draw. -/
def generateCustomerDemand (base draw : ℚ) : ℚ := max 0 (base + draw)

/-- Pass 1, step 1: the incoming demand on agent `i` — the fresh customer
demand for the retailer (`i = 0`), and the order placed this week by the
downstream neighbour `orders[i-1]` otherwise. -/
def downstreamOrder (demand : ℚ) (orders : Fin 4 → ℚ) : Fin 4 → ℚ
  | ⟨0, _⟩ => demand
  | ⟨n + 1, h⟩ => orders ⟨n, by omega⟩

/-- Pass 1, step 2: `self.backorders[i] += incoming demand`. -/
def backorderAcc (env : EnvState) (demand : ℚ) (i : Fin 4) : ℚ :=
  env.backorders i + downstreamOrder demand env.orders i

/-- Pass 1, step 3: `self.inventory_levels[i] += self.incoming_shipments[i]`. -/
def inventoryAcc (env : EnvState) (i : Fin 4) : ℚ :=
  env.inventory_levels i + env.incoming_shipments i

/-- Pass 1, step 4: `max_possible_shipment[i] = inventory_levels[i] -
max(inventory_levels[i] - backorders[i], 0)`, evaluated on the accumulated
inventory and backorder of this week. -/
def maxPossibleShipment (env : EnvState) (demand : ℚ) (i : Fin 4) : ℚ :=
  inventoryAcc env i - max (inventoryAcc env i - backorderAcc env demand i) 0

/-- The customer demand drawn by `_update_state` for the current week: the
head of the modelled random stream, clamped by `_generate_customer_demand`. -/
def weekDemand (cfg : Config) (env : EnvState) : ℚ :=
  generateCustomerDemand cfg.base_demand (env.rng.headD 0)

/-- `_update_state`: draws the week's customer demand from the stream, runs
pass 1 (backorder accrual, replenishment, feasible shipment, decrement) and
pass 2 (route each shipment one echelon downstream; retailer's shipment goes
to the customer and into `total_beers`; the factory's next incoming shipment
is its own order). -/
def updateState (cfg : Config) (env : EnvState) : EnvState :=
  let demand := weekDemand cfg env
  let ship := maxPossibleShipment env demand
  { env with
    customer := { orders := demand, incoming_shipments := ship 0 }
    inventory_levels := fun i => inventoryAcc env i - ship i
    backorders := fun i => backorderAcc env demand i - ship i
    incoming_shipments := fun j =>
      if h : j.val + 1 < 4 then ship ⟨j.val + 1, h⟩ else env.orders 3
    total_beers := env.total_beers + ship 0
    rng := env.rng.tail }

/-- `_calculate_reward`. -/
def calculateReward (cfg : Config) (env : EnvState) (i : Fin 4) : ℚ :=
  -(cfg.holding_cost i * env.inventory_levels i +
    cfg.backorder_cost i * env.backorders i)

/-- Single-index array write, `xs[i] = a`. -/
def writeAt (o : Fin 4 → ℚ) (i : Fin 4) (a : ℚ) : Fin 4 → ℚ :=
  fun j => if j = i then a else o j

/-- Modelled from the spec: `_was_dead_step` is pettingzoo library code absent
from src; per the spec a post-termination action is "absorbed as a no-op
rather than raising", so the state is unchanged apart from the turn cursor
advancing, and the acting agent gets reward 0. -/
def wasDeadStep (env : EnvState) : EnvState × ℚ :=
  ({ env with agent_selection := env.agent_selection + 1 }, 0)

/-- `raw_env.step`: record the order; if the acting agent is last in the cycle
(`is_last`, the factory), run `_update_state`, advance the week, and raise the
termination flags once `week >= 52`; then compute the acting agent's reward
from whatever state is current, store it, and advance the turn cursor.  The
pettingzoo `agent_selector` is modelled by the wrapping successor on `Fin 4`
(the spec's TurnCursor: fixed order, one full cycle per week). -/
def step (cfg : Config) (env : EnvState) (action : ℚ) : EnvState × ℚ :=
  if env.terminations env.agent_selection || env.truncations env.agent_selection then
    wasDeadStep env
  else
    let idx := env.agent_selection
    let env1 := { env with orders := writeAt env.orders idx action }
    let env2 :=
      if idx = 3 then
        let envU := updateState cfg env1
        let envW := { envU with week := envU.week + 1 }
        if 52 ≤ envW.week then { envW with terminations := fun _ => true } else envW
      else env1
    let reward := calculateReward cfg env2 idx
    ({ env2 with rewards := writeAt env2.rewards idx reward,
                 agent_selection := idx + 1 }, reward)

/-- `raw_env.reset(seed=None, options=None)`: reinitialises the roster, reward
bookkeeping, flags, week, inventory, backorders, orders and incoming
shipments from the configuration, and restarts the turn cursor.  Note which
attributes the body never touches: `customer`, `total_beers`, the random
stream, and the `seed`/`options` parameters. -/
def reset (cfg : Config) (env : EnvState) (seed : Option ℕ) (options : Option Unit) :
    EnvState where
  week := 0
  inventory_levels := cfg.init_inv_level
  backorders := fun _ => 0
  orders := cfg.init_orders
  incoming_shipments := cfg.init_shipments
  customer := env.customer
  total_beers := env.total_beers
  agents := possibleAgents
  terminations := fun _ => false
  truncations := fun _ => false
  rewards := fun _ => 0
  agent_selection := 0
  rng := env.rng

/-- The six-field observation dict returned by `raw_env.observe`. -/
structure Observation where
  inventory : ℚ
  backorders : ℚ
  orders : ℚ
  incoming_shipments : ℚ
  holding_cost : ℚ
  backorder_cost : ℚ
deriving DecidableEq

/-- `raw_env.observe`: `None` when the agent is not in the active roster
`self.agents`, otherwise the six-field observation. -/
def observe (cfg : Config) (env : EnvState) (agent : String) : Option Observation :=
  if agent ∈ env.agents then
    let i := agentIndex agent
    some { inventory := env.inventory_levels i
           backorders := env.backorders i
           orders := env.orders i
           incoming_shipments := env.incoming_shipments i
           holding_cost := cfg.holding_cost i
           backorder_cost := cfg.backorder_cost i }
  else none

/-- Iterated `step`, one action per call, threading the state. -/
def run (cfg : Config) (env : EnvState) : List ℚ → EnvState
  | [] => env
  | a :: acts => run cfg (step cfg env a).1 acts

/-- The retailer-to-customer shipment (`ship[0]`) produced by one `step` call:
nonzero only on a live factory turn, where it is the `max_possible_shipment[0]`
of the propagation that turn triggers. -/
def stepShip (cfg : Config) (env : EnvState) (a : ℚ) : ℚ :=
  if env.terminations env.agent_selection = false ∧
     env.truncations env.agent_selection = false ∧
     env.agent_selection = 3 then
    let env1 := { env with orders := writeAt env.orders env.agent_selection a }
    maxPossibleShipment env1 (weekDemand cfg env1) 0
  else 0

/-- Cumulative retailer-to-customer shipments over a sequence of `step`s. -/
def totalShipped (cfg : Config) (env : EnvState) : List ℚ → ℚ
  | [] => 0
  | a :: acts => stepShip cfg env a + totalShipped cfg (step cfg env a).1 acts

/-- The non-negativity invariant on the numeric episode state. -/
def Nonneg (env : EnvState) : Prop :=
  (∀ i, 0 ≤ env.inventory_levels i) ∧ (∀ i, 0 ≤ env.backorders i) ∧
  (∀ i, 0 ≤ env.orders i) ∧ (∀ i, 0 ≤ env.incoming_shipments i)

instance (env : EnvState) : Decidable (Nonneg env) := by
  unfold Nonneg; infer_instance

/-- Concrete state used by witnesses: default configuration, one queued
zero draw, freshly reset. -/
def envW : EnvState := reset defaultConfig (initEnv [0]) none none

/-! ## Algebraic helper lemmas -/

/-- The pass-1 shipment formula computes the minimum of the accumulated
inventory and the accumulated backorder. -/
lemma sub_max_sub_eq_min (a b : ℚ) : a - max (a - b) 0 = min a b := by
  rcases le_total a b with h | h
  · rw [max_eq_right (by linarith : a - b ≤ (0 : ℚ)), min_eq_left h]
    ring
  · rw [max_eq_left (by linarith : (0 : ℚ) ≤ a - b), min_eq_right h]
    ring

/-- Residual inventory after shipping: `a - (a - max (a - b) 0) = max (a - b) 0`. -/
lemma sub_ship_inv (a b : ℚ) : a - (a - max (a - b) 0) = max (a - b) 0 := by ring

/-- Residual backorder after shipping: `b - (a - max (a - b) 0) = max (b - a) 0`. -/
lemma sub_ship_back (a b : ℚ) : b - (a - max (a - b) 0) = max (b - a) 0 := by
  rcases le_total a b with h | h
  · rw [max_eq_right (by linarith : a - b ≤ (0 : ℚ)),
        max_eq_left (by linarith : (0 : ℚ) ≤ b - a)]
    ring
  · rw [max_eq_left (by linarith : (0 : ℚ) ≤ a - b),
        max_eq_right (by linarith : b - a ≤ (0 : ℚ))]
    ring

lemma maxPossibleShipment_eq_min (env : EnvState) (d : ℚ) (i : Fin 4) :
    maxPossibleShipment env d i = min (inventoryAcc env i) (backorderAcc env d i) :=
  sub_max_sub_eq_min _ _

lemma updateState_inventory (cfg : Config) (env : EnvState) (i : Fin 4) :
    (updateState cfg env).inventory_levels i
      = max (inventoryAcc env i - backorderAcc env (weekDemand cfg env) i) 0 :=
  sub_ship_inv _ _

lemma updateState_backorders (cfg : Config) (env : EnvState) (i : Fin 4) :
    (updateState cfg env).backorders i
      = max (backorderAcc env (weekDemand cfg env) i - inventoryAcc env i) 0 :=
  sub_ship_back _ _

lemma generateCustomerDemand_nonneg (base draw : ℚ) :
    0 ≤ generateCustomerDemand base draw := le_max_left 0 _

lemma downstreamOrder_nonneg {d : ℚ} {o : Fin 4 → ℚ}
    (hd : 0 ≤ d) (ho : ∀ i, 0 ≤ o i) : ∀ i, 0 ≤ downstreamOrder d o i := by
  rintro ⟨i, hi⟩
  cases i with
  | zero => exact hd
  | succ n => exact ho _

lemma writeAt_nonneg {o : Fin 4 → ℚ} {a : ℚ} (ho : ∀ i, 0 ≤ o i) (ha : 0 ≤ a)
    (k : Fin 4) : ∀ j, 0 ≤ writeAt o k a j := by
  intro j
  unfold writeAt
  split_ifs
  · exact ha
  · exact ho j

lemma backorderAcc_nonneg {env : EnvState} {d : ℚ}
    (hback : ∀ i, 0 ≤ env.backorders i) (hord : ∀ i, 0 ≤ env.orders i)
    (hd : 0 ≤ d) (i : Fin 4) : 0 ≤ backorderAcc env d i :=
  add_nonneg (hback i) (downstreamOrder_nonneg hd hord i)

lemma inventoryAcc_nonneg {env : EnvState}
    (hinv : ∀ i, 0 ≤ env.inventory_levels i)
    (hship : ∀ i, 0 ≤ env.incoming_shipments i) (i : Fin 4) :
    0 ≤ inventoryAcc env i :=
  add_nonneg (hinv i) (hship i)

lemma maxPossibleShipment_nonneg {env : EnvState} {d : ℚ} (h : Nonneg env)
    (hd : 0 ≤ d) (i : Fin 4) : 0 ≤ maxPossibleShipment env d i := by
  rw [maxPossibleShipment_eq_min]
  exact le_min (inventoryAcc_nonneg h.1 h.2.2.2 i)
    (backorderAcc_nonneg h.2.1 h.2.2.1 hd i)

/-- `_update_state` preserves the non-negativity invariant. -/
lemma nonneg_updateState (cfg : Config) {env : EnvState} (h : Nonneg env) :
    Nonneg (updateState cfg env) := by
  obtain ⟨hinv, hback, hord, hship⟩ := h
  refine ⟨fun i => ?_, fun i => ?_, fun i => ?_, fun i => ?_⟩
  · rw [updateState_inventory]
    exact le_max_right _ _
  · rw [updateState_backorders]
    exact le_max_right _ _
  · exact hord i
  · show 0 ≤ (updateState cfg env).incoming_shipments i
    have hd : 0 ≤ weekDemand cfg env := generateCustomerDemand_nonneg _ _
    by_cases hi : i.val + 1 < 4
    · have : (updateState cfg env).incoming_shipments i
          = maxPossibleShipment env (weekDemand cfg env) ⟨i.val + 1, hi⟩ := by
        simp only [updateState, dif_pos hi]
      rw [this]
      exact maxPossibleShipment_nonneg ⟨hinv, hback, hord, hship⟩ hd _
    · have : (updateState cfg env).incoming_shipments i = env.orders 3 := by
        simp only [updateState, dif_neg hi]
      rw [this]
      exact hord 3

/-- `step` preserves the non-negativity invariant when the action is
non-negative. -/
lemma nonneg_step (cfg : Config) {env : EnvState} {a : ℚ} (h : Nonneg env)
    (ha : 0 ≤ a) : Nonneg (step cfg env a).1 := by
  obtain ⟨hinv, hback, hord, hship⟩ := h
  have h1 : Nonneg { env with orders := writeAt env.orders env.agent_selection a } :=
    ⟨hinv, hback, writeAt_nonneg hord ha _, hship⟩
  have h2 := nonneg_updateState cfg h1
  simp only [step, wasDeadStep]
  split_ifs
  · exact ⟨hinv, hback, hord, hship⟩
  · exact h2
  · exact h2
  · exact h1

lemma nonneg_run (cfg : Config) {env : EnvState} {acts : List ℚ} (h : Nonneg env)
    (ha : ∀ a ∈ acts, 0 ≤ a) : Nonneg (run cfg env acts) := by
  induction acts generalizing env with
  | nil => exact h
  | cons a acts ih =>
    exact ih (nonneg_step cfg h (ha a (List.mem_cons_self a acts)))
      (fun b hb => ha b (List.mem_cons_of_mem a hb))

/-- One `step` call changes `total_beers` by exactly the retailer-to-customer
shipment of that call (zero except on a live factory turn). -/
lemma step_total_beers (cfg : Config) (env : EnvState) (a : ℚ) :
    (step cfg env a).1.total_beers = env.total_beers + stepShip cfg env a := by
  cases hT : env.terminations env.agent_selection <;>
    cases hU : env.truncations env.agent_selection <;>
      simp only [step, wasDeadStep, stepShip, hT, hU, Bool.false_or, Bool.or_self,
        Bool.true_or, Bool.or_true, if_true, if_false, Bool.false_eq_true, true_and,
        false_and, and_false, if_neg, not_false_eq_true, and_true]
  · by_cases h3 : env.agent_selection = 3
    · rw [if_pos h3, if_pos h3]
      split_ifs <;> simp [updateState]
    · rw [if_neg h3, if_neg h3]
      simp
  all_goals simp

lemma stepShip_nonneg (cfg : Config) {env : EnvState} {a : ℚ} (h : Nonneg env)
    (ha : 0 ≤ a) : 0 ≤ stepShip cfg env a := by
  unfold stepShip
  split_ifs with hc
  · have h1 : Nonneg { env with orders := writeAt env.orders env.agent_selection a } :=
      ⟨h.1, h.2.1, writeAt_nonneg h.2.2.1 ha _, h.2.2.2⟩
    exact maxPossibleShipment_nonneg h1 (generateCustomerDemand_nonneg _ _) 0
  · exact le_refl 0

lemma run_total_beers (cfg : Config) (env : EnvState) (acts : List ℚ) :
    (run cfg env acts).total_beers = env.total_beers + totalShipped cfg env acts := by
  induction acts generalizing env with
  | nil => simp [run, totalShipped]
  | cons a acts ih =>
    simp only [run, totalShipped]
    rw [ih, step_total_beers]
    ring

lemma totalShipped_nonneg (cfg : Config) {env : EnvState} {acts : List ℚ}
    (h : Nonneg env) (ha : ∀ a ∈ acts, 0 ≤ a) : 0 ≤ totalShipped cfg env acts := by
  induction acts generalizing env with
  | nil => exact le_refl 0
  | cons a acts ih =>
    exact add_nonneg (stepShip_nonneg cfg h (ha a (List.mem_cons_self a acts)))
      (ih (nonneg_step cfg h (ha a (List.mem_cons_self a acts)))
        (fun b hb => ha b (List.mem_cons_of_mem a hb)))

lemma updateState_week (cfg : Config) (env : EnvState) :
    (updateState cfg env).week = env.week := rfl

lemma updateState_terminations (cfg : Config) (env : EnvState) :
    (updateState cfg env).terminations = env.terminations := rfl

/-- On a live turn, the week counter advances exactly when the factory (the
last agent of the cycle) acts. -/
lemma step_week (cfg : Config) (env : EnvState) (a : ℚ)
    (hT : env.terminations env.agent_selection = false)
    (hU : env.truncations env.agent_selection = false) :
    (step cfg env a).1.week
      = if env.agent_selection = 3 then env.week + 1 else env.week := by
  simp only [step, wasDeadStep, hT, hU, Bool.or_self, Bool.false_eq_true, if_false]
  split_ifs <;> rfl

/-- On a live turn starting with all flags down, the termination flag of every
agent after the step holds exactly when the factory just acted and the
incremented week counter has reached 52. -/
lemma step_terminations (cfg : Config) (env : EnvState) (a : ℚ)
    (hlive : ∀ i, env.terminations i = false ∧ env.truncations i = false)
    (i : Fin 4) :
    ((step cfg env a).1.terminations i = true ↔
      env.agent_selection = 3 ∧ 52 ≤ env.week + 1) := by
  have hT := (hlive env.agent_selection).1
  have hU := (hlive env.agent_selection).2
  simp only [step, wasDeadStep, hT, hU, Bool.or_self, Bool.false_eq_true, if_false]
  by_cases h3 : env.agent_selection = 3
  · rw [if_pos h3]
    by_cases h52 : (52 : ℕ) ≤ env.week + 1
    · split_ifs with hc
      · simp [h3, h52]
      · exact absurd h52 hc
    · split_ifs with hc
      · exact absurd hc h52
      · simp [updateState_terminations, (hlive i).1, h52]
  · rw [if_neg h3]
    simp [(hlive i).1, h3]

/-! ## Claim theorems -/

/-- C1: for every agent and every week, if the submitted orders and the
inventory/shipment/backorder state entering the propagation are non-negative,
then after each run of `_update_state` both `inventory_levels[i] >= 0` and
`backorders[i] >= 0`; moreover the invariant persists along any further
sequence of non-negative actions. -/
theorem update_state_nonneg (cfg : Config) (env : EnvState)
    (hinv : ∀ i, 0 ≤ env.inventory_levels i) (hback : ∀ i, 0 ≤ env.backorders i)
    (hord : ∀ i, 0 ≤ env.orders i) (hship : ∀ i, 0 ≤ env.incoming_shipments i) :
    (∀ i, 0 ≤ (updateState cfg env).inventory_levels i ∧
      0 ≤ (updateState cfg env).backorders i) ∧
    (∀ acts : List ℚ, (∀ a ∈ acts, 0 ≤ a) → ∀ i,
      0 ≤ (run cfg env acts).inventory_levels i ∧
      0 ≤ (run cfg env acts).backorders i) := by
  have h : Nonneg env := ⟨hinv, hback, hord, hship⟩
  constructor
  · intro i
    exact ⟨(nonneg_updateState cfg h).1 i, (nonneg_updateState cfg h).2.1 i⟩
  · intro acts ha i
    exact ⟨(nonneg_run cfg h ha).1 i, (nonneg_run cfg h ha).2.1 i⟩

/-- Witness for C1: default configuration, freshly reset. -/
theorem update_state_nonneg_witness :
    0 ≤ (updateState defaultConfig envW).inventory_levels 0 ∧
    0 ≤ (updateState defaultConfig envW).backorders 0 :=
  (update_state_nonneg defaultConfig envW
    (fun i => by norm_num [envW, reset, defaultConfig])
    (fun i => by norm_num [envW, reset])
    (fun i => by norm_num [envW, reset, defaultConfig])
    (fun i => by norm_num [envW, reset, defaultConfig])).1 0

/-- C2: in pass 1 the shipped quantity equals the minimum of accumulated
inventory and accumulated backorder, hence never exceeds the pre-pass
inventory plus the incoming shipment, and never exceeds the total owed
backorder (current backorder including this week's new demand). -/
theorem pass1_shipment_bounds (cfg : Config) (env : EnvState) (i : Fin 4) :
    maxPossibleShipment env (weekDemand cfg env) i
        = min (inventoryAcc env i) (backorderAcc env (weekDemand cfg env) i) ∧
    maxPossibleShipment env (weekDemand cfg env) i
        ≤ env.inventory_levels i + env.incoming_shipments i ∧
    maxPossibleShipment env (weekDemand cfg env) i
        ≤ backorderAcc env (weekDemand cfg env) i := by
  refine ⟨maxPossibleShipment_eq_min _ _ _, ?_, ?_⟩
  · rw [maxPossibleShipment_eq_min]
    exact min_le_left _ _
  · rw [maxPossibleShipment_eq_min]
    exact min_le_right _ _

/-- C3: pass 2 routes each shipment one echelon downstream — agent i's
shipment becomes incoming_shipments[i-1] for the next week, the retailer's
shipment is recorded on the customer, and the factory's own next-week
incoming shipment equals the order it submitted this week, regardless of its
inventory or backorder. -/
theorem pass2_routing (cfg : Config) (env : EnvState) :
    (updateState cfg env).incoming_shipments 0
        = maxPossibleShipment env (weekDemand cfg env) 1 ∧
    (updateState cfg env).incoming_shipments 1
        = maxPossibleShipment env (weekDemand cfg env) 2 ∧
    (updateState cfg env).incoming_shipments 2
        = maxPossibleShipment env (weekDemand cfg env) 3 ∧
    (updateState cfg env).incoming_shipments 3 = env.orders 3 ∧
    (updateState cfg env).customer.incoming_shipments
        = maxPossibleShipment env (weekDemand cfg env) 0 :=
  ⟨rfl, rfl, rfl, rfl, rfl⟩

/-- C4: total_beers increases by exactly the retailer-to-customer shipment of
each propagation, equals its value at the start of the window plus the
cumulative sum of those shipments, and is non-decreasing when the state and
actions are non-negative. -/
theorem total_beers_cumulative (cfg : Config) (env : EnvState) (acts : List ℚ)
    (h : Nonneg env) (ha : ∀ a ∈ acts, 0 ≤ a) :
    (run cfg env acts).total_beers = env.total_beers + totalShipped cfg env acts ∧
    env.total_beers ≤ (run cfg env acts).total_beers ∧
    ∀ b : ℚ, (step cfg env b).1.total_beers = env.total_beers + stepShip cfg env b := by
  refine ⟨run_total_beers cfg env acts, ?_, fun b => step_total_beers cfg env b⟩
  rw [run_total_beers]
  linarith [totalShipped_nonneg cfg h ha]

/-- Witness for C4: default configuration, one week of order 8 from each
agent. -/
theorem total_beers_cumulative_witness :
    (run defaultConfig envW [8, 8, 8, 8]).total_beers
        = envW.total_beers + totalShipped defaultConfig envW [8, 8, 8, 8] ∧
    envW.total_beers ≤ (run defaultConfig envW [8, 8, 8, 8]).total_beers := by
  have h : Nonneg envW := by
    unfold Nonneg envW reset defaultConfig initEnv
    norm_num
  have ha : ∀ a ∈ ([8, 8, 8, 8] : List ℚ), 0 ≤ a := by
    intro a hmem
    fin_cases hmem <;> norm_num
  exact ⟨(total_beers_cumulative defaultConfig envW [8, 8, 8, 8] h ha).1,
    (total_beers_cumulative defaultConfig envW [8, 8, 8, 8] h ha).2.1⟩

/-- C5: the reward equals the negated weighted sum of inventory and backorder,
and is nonpositive whenever the cost coefficients, inventory and backorders
are non-negative. -/
theorem calculate_reward_spec (cfg : Config) (env : EnvState) (i : Fin 4) :
    calculateReward cfg env i =
      -(cfg.holding_cost i * env.inventory_levels i +
        cfg.backorder_cost i * env.backorders i) ∧
    (0 ≤ cfg.holding_cost i → 0 ≤ cfg.backorder_cost i →
      0 ≤ env.inventory_levels i → 0 ≤ env.backorders i →
      calculateReward cfg env i ≤ 0) := by
  refine ⟨rfl, fun h1 h2 h3 h4 => ?_⟩
  unfold calculateReward
  have := add_nonneg (mul_nonneg h1 h3) (mul_nonneg h2 h4)
  linarith

/-- Witness for C5: default configuration, reward of the freshly reset
retailer. -/
theorem calculate_reward_spec_witness :
    calculateReward defaultConfig envW 0 ≤ 0 :=
  (calculate_reward_spec defaultConfig envW 0).2
    (by norm_num [defaultConfig]) (by norm_num [defaultConfig])
    (by norm_num [envW, reset, defaultConfig]) (by norm_num [envW, reset])

/-- C6: on live turns the week counter is incremented exactly when the last
agent of the cycle (the factory) acts, and the termination flags of all four
agents become true simultaneously, exactly at the step whose increment makes
the week reach 52 — never earlier and never later. -/
theorem step_week_termination (cfg : Config) (env : EnvState) (a : ℚ)
    (hlive : ∀ i, env.terminations i = false ∧ env.truncations i = false) :
    ((step cfg env a).1.week
        = if env.agent_selection = 3 then env.week + 1 else env.week) ∧
    (∀ i : Fin 4, (step cfg env a).1.terminations i = true ↔
        env.agent_selection = 3 ∧ 52 ≤ env.week + 1) :=
  ⟨step_week cfg env a (hlive env.agent_selection).1 (hlive env.agent_selection).2,
   step_terminations cfg env a hlive⟩

/-- Witness for C6: freshly reset default environment, retailer's turn. -/
theorem step_week_termination_witness :
    ((step defaultConfig envW 8).1.week
        = if envW.agent_selection = 3 then envW.week + 1 else envW.week) ∧
    ((step defaultConfig envW 8).1.terminations 0 = true ↔
        envW.agent_selection = 3 ∧ 52 ≤ envW.week + 1) :=
  ⟨(step_week_termination defaultConfig envW 8 (by decide)).1,
   (step_week_termination defaultConfig envW 8 (by decide)).2 0⟩

/-- C7: the reward of a step is computed at the instant the acting agent's
action is processed — from the pre-propagation state for the three agents
that are not last in the cycle, and from the post-propagation state (the one
its own action just triggered) for the factory. -/
theorem step_reward_timing (cfg : Config) (env : EnvState) (a : ℚ)
    (hT : env.terminations env.agent_selection = false)
    (hU : env.truncations env.agent_selection = false) :
    (env.agent_selection ≠ 3 →
      (step cfg env a).2 = calculateReward cfg env env.agent_selection) ∧
    (env.agent_selection = 3 →
      (step cfg env a).2 = calculateReward cfg
        (updateState cfg { env with orders := writeAt env.orders env.agent_selection a })
        env.agent_selection) := by
  constructor <;> intro h3 <;>
    simp only [step, wasDeadStep, hT, hU, Bool.or_self, Bool.false_eq_true, if_false]
  · rw [if_neg h3]
    rfl
  · rw [if_pos h3]
    split_ifs <;> rfl

/-- Witness for C7: freshly reset default environment — the retailer (not
last in the cycle) is rewarded on the pre-propagation state. -/
theorem step_reward_timing_witness :
    (step defaultConfig envW 8).2
      = calculateReward defaultConfig envW envW.agent_selection :=
  (step_reward_timing defaultConfig envW 8 (by decide) (by decide)).1 (by decide)

/-- C8 (refuted on the code): after a full week of play (every agent ordering
8, one zero draw queued) followed by a fresh `reset`, `total_beers` still
holds the 8 units shipped in the previous episode and `customer.orders` still
holds the previous episode's demand — while the constructor initialises both
to 0.  `reset` reinitialises week, inventory, backorders, orders, shipments,
flags and cursor, but never touches `self.total_beers` or `self.customer`. -/
theorem reset_persists_total_beers :
    (reset defaultConfig (run defaultConfig envW [8, 8, 8, 8]) none none).total_beers = 8 ∧
    (reset defaultConfig (run defaultConfig envW [8, 8, 8, 8]) none none).customer.orders = 8 ∧
    (initEnv [0]).total_beers = 0 ∧ (initEnv [0]).customer.orders = 0 := by
  have h1 : (run defaultConfig envW [8, 8, 8, 8]).total_beers = 8 := by
    simp [run, step, envW, reset, initEnv, defaultConfig, updateState, writeAt,
      wasDeadStep, maxPossibleShipment, inventoryAcc, backorderAcc, downstreamOrder,
      generateCustomerDemand, weekDemand, possibleAgents]
    norm_num
  have h2 : (run defaultConfig envW [8, 8, 8, 8]).customer.orders = 8 := by
    simp [run, step, envW, reset, initEnv, defaultConfig, updateState, writeAt,
      wasDeadStep, maxPossibleShipment, inventoryAcc, backorderAcc, downstreamOrder,
      generateCustomerDemand, weekDemand, possibleAgents]
  exact ⟨h1, h2, rfl, rfl⟩

/-- C9: observing an agent outside the active roster yields an explicit
no-observation result (`none`) rather than a computation; every agent in the
roster gets the six-field observation. -/
theorem observe_roster (cfg : Config) (env : EnvState) (agent : String) :
    (agent ∉ env.agents → observe cfg env agent = none) ∧
    (agent ∈ env.agents → observe cfg env agent = some
      { inventory := env.inventory_levels (agentIndex agent)
        backorders := env.backorders (agentIndex agent)
        orders := env.orders (agentIndex agent)
        incoming_shipments := env.incoming_shipments (agentIndex agent)
        holding_cost := cfg.holding_cost (agentIndex agent)
        backorder_cost := cfg.backorder_cost (agentIndex agent) }) := by
  constructor <;> intro h <;> simp [observe, h]

/-- Witness for C9: the string "customer" is not in the post-reset roster and
gets no observation; "retailer" is and gets the six-field observation. -/
theorem observe_roster_witness :
    observe defaultConfig envW "customer" = none ∧
    observe defaultConfig envW "retailer" = some
      { inventory := envW.inventory_levels (agentIndex "retailer")
        backorders := envW.backorders (agentIndex "retailer")
        orders := envW.orders (agentIndex "retailer")
        incoming_shipments := envW.incoming_shipments (agentIndex "retailer")
        holding_cost := defaultConfig.holding_cost (agentIndex "retailer")
        backorder_cost := defaultConfig.backorder_cost (agentIndex "retailer") } :=
  ⟨(observe_roster defaultConfig envW "customer").1 (by decide),
   (observe_roster defaultConfig envW "retailer").2 (by decide)⟩

/-- C10: `reset` ignores its `seed` and `options` parameters — any two calls
on the same environment produce identical post-reset states — and it leaves
the modelled process-wide random stream untouched, so the subsequent demand
stream is drawn from the stream established at construction time. -/
theorem reset_ignores_seed (cfg : Config) (env : EnvState)
    (s1 s2 : Option ℕ) (o1 o2 : Option Unit) :
    reset cfg env s1 o1 = reset cfg env s2 o2 ∧
    (reset cfg env s1 o1).rng = env.rng ∧
    (updateState cfg (reset cfg env s1 o1)).customer.orders
      = generateCustomerDemand cfg.base_demand (env.rng.headD 0) :=
  ⟨rfl, rfl, rfl⟩

end BeerGame
